import Mathlib

/-!
Verification of the Pathfinder/KISS analytics record pipeline of the dashboard.

This file gives a shallow embedding, in Lean, of the client-side data model
and the filter / sort / paginate / aggregate logic of the dashboard:

* `src/types/business.ts` : `BusinessRecord`, `KissRawRecord`, `normalizeKissRecord`,
  the `DataEntry` shape of the overview endpoint;
* `src/components/ResultsList.tsx` : the filter options, the filter predicate,
  the sort comparator, pagination;
* `src/pages/SalesLeaderboard.tsx` : session filtering and the per-salesperson
  aggregation (grouping, averages, completion counts, eligibility, ranking);
* `src/pages/Overview.tsx` : the overview filters and the product-distribution
  aggregation.

JavaScript `Date` values are modelled as milliseconds since the epoch (a `Nat`);
the parse `new Date(string).getTime()` is abstracted as a function
`toTime : String → Nat` threaded through every definition that parses a date.
`setHours(0,0,0,0)` / `setHours(23,59,59,999)` become truncation to a multiple
of `msPerDay` respectively that plus `msPerDay - 1`.  JavaScript string
falsiness (`""` is falsy, `null`/`undefined` are absent) is modelled with
`Option String` and the `jsOr*` combinators below.
-/

namespace Pathfinder

/-- The session-type discriminant `_sessionType ∈ {"pathfinder", "kiss"}`. -/
inductive SessionType where
  | pathfinder
  | kiss
deriving DecidableEq, Repr

/-- The unified record shape (`BusinessRecord` in `src/types/business.ts`),
restricted to the fields the dashboard logic reads.  Date-valued string
fields (`start_time`, `timestamp`) stay strings, as in the source; they are
parsed at each point of use. -/
structure BusinessRecord where
  id : String
  session_id : String
  google_id : String
  google_full_name : String
  google_email : String
  step : Int
  total_steps : Int
  client_name : String
  website_url : String
  diagnostic_answers : String
  product : Option String
  contract_length : Option String
  start_time : String
  timestamp : String
  sessionType : SessionType
deriving DecidableEq, Repr

/-- The nested `data` object of a raw KISS record (`KissRawRecord.data`).
Fields that JavaScript may find absent or empty are `Option`-valued; a present
empty string is `some ""` (falsy, like absence, under `||`). -/
structure KissData where
  clientUrl : Option String
  createdAt : Option String
  sessionId : Option String
  updatedAt : Option String
  prospectName : Option String
  currentScreen : Option Int
  contractLength : Option String
  salesPersonName : Option String
  selectedProduct : Option String
  recommendedProduct : Option String
deriving DecidableEq, Repr

/-- A raw KISS source record (`KissRawRecord` in `src/types/business.ts`). -/
structure KissRawRecord where
  id : String
  data : KissData
  created_at : Option String
  updated_at : Option String
  completed : Bool
deriving DecidableEq, Repr

/-- JavaScript `a || b` for a possibly-absent string `a` and string default
`b`: an absent or empty string falls through to the default. -/
def jsOrS (a : Option String) (b : String) : String :=
  match a with
  | none => b
  | some s => if s = "" then b else s

/-- JavaScript `a || b` where both sides are possibly-absent strings
(used for `selectedProduct || recommendedProduct || null`). -/
def jsOrO (a : Option String) (b : Option String) : Option String :=
  match a with
  | none => b
  | some s => if s = "" then b else some s

/-- JavaScript `a || b` for a possibly-absent number (`0` is falsy). -/
def jsOrI (a : Option Int) (b : Int) : Int :=
  match a with
  | none => b
  | some v => if v = 0 then b else v

/-- `normalizeKissRecord` from `src/types/business.ts`: maps a raw KISS
record onto the unified `BusinessRecord` shape, defaulting missing fields. -/
def normalizeKissRecord (kiss : KissRawRecord) : BusinessRecord :=
  { id := kiss.id
    session_id := jsOrS kiss.data.sessionId kiss.id
    google_id := ""
    google_full_name := jsOrS kiss.data.salesPersonName "Unknown"
    google_email := ""
    step := jsOrI kiss.data.currentScreen 0
    total_steps := 2
    client_name := jsOrS kiss.data.prospectName "Unknown"
    website_url := jsOrS kiss.data.clientUrl ""
    diagnostic_answers := "\x7b\x7d"
    product := jsOrO kiss.data.selectedProduct (jsOrO kiss.data.recommendedProduct none)
    contract_length := jsOrO kiss.data.contractLength none
    start_time := jsOrS kiss.created_at (jsOrS kiss.data.createdAt "")
    timestamp := jsOrS kiss.updated_at (jsOrS kiss.data.updatedAt "")
    sessionType := SessionType.kiss }

/-! ### Dates

Times are milliseconds since the epoch.  `setHours(0,0,0,0)` truncates to the
start of the (86 400 000 ms) day; `setHours(23,59,59,999)` moves to its last
millisecond. -/

/-- Milliseconds per day. -/
def msPerDay : Nat := 86400000

/-- `d.setHours(0,0,0,0)`: start of the day containing `t`. -/
def startOfDay (t : Nat) : Nat := t - t % msPerDay

/-- `d.setHours(23,59,59,999)`: last millisecond of the day containing `t`. -/
def endOfDay (t : Nat) : Nat := startOfDay t + (msPerDay - 1)

/-! ### Overview page (`src/pages/Overview.tsx`) -/

/-- One entry of the payload of the overview endpoint (`DataEntry` in
`src/contexts/SessionDataContext.tsx`). -/
structure DataEntry where
  timeCreated : String
  salesPerson : String
  salesEmail : Option String
  product : String
  bound : Option String
deriving DecidableEq, Repr

/-- `PATHFINDER_INBOUND_TEAM` from `src/pages/Overview.tsx`. -/
def PATHFINDER_INBOUND_TEAM : List String :=
  [ "aaron.nixon@thrivemediagroup.co.uk"
  , "hamid.hassan@thrivemediagroup.co.uk"
  , "charlie.griffiths@thrivemediagroup.co.uk"
  , "samuel.braniff@thrivemediagroup.co.uk" ]

/-- `PATHFINDER_OUTBOUND_TEAM` from `src/pages/Overview.tsx`. -/
def PATHFINDER_OUTBOUND_TEAM : List String :=
  [ "joe.richardson@thrivemediagroup.co.uk"
  , "wesley.mcdonald@thrivemediagroup.co.uk"
  , "padraig.anglin@thrivemediagroup.co.uk"
  , "tommy.macfarlane@thrivemediagroup.co.uk"
  , "james.clarke@thrivemediagroup.co.uk" ]

/-- `getPathfinderBound`: resolve the team of a Pathfinder entry from its sales
email against the two fixed allow-lists (`none` = unknown team). -/
def getPathfinderBound (salesEmail : Option String) : Option String :=
  match salesEmail with
  | none => none
  | some e =>
    if e = "" then none
    else
      let normalizedEmail := e.toLower.trim
      if PATHFINDER_INBOUND_TEAM.any (fun email => email.toLower = normalizedEmail) then
        some "inbound"
      else if PATHFINDER_OUTBOUND_TEAM.any (fun email => email.toLower = normalizedEmail) then
        some "outbound"
      else none

/-- The date-range test inside `filterPathfinderData` / `filterKissData`
(`src/pages/Overview.tsx`, lines 140–146 / 163–169): both boundaries are
copies of the selected dates with the start normalized to start-of-day and the
end to end-of-day, and the `timeCreated` of the entry must not fall strictly
outside them. -/
def overviewDateOk (toTime : String → Nat) (startDate endDate : Option Nat)
    (entry : DataEntry) : Bool :=
  let entryDate := toTime entry.timeCreated
  (match startDate with
   | none => true
   | some s => !(entryDate < startOfDay s)) &&
  (match endDate with
   | none => true
   | some e => !(entryDate > endOfDay e))

/-- `filterPathfinderData` from `src/pages/Overview.tsx`: date range, agent
and (email-resolved) bound filter over Pathfinder overview entries. -/
def filterPathfinderData (toTime : String → Nat) (startDate endDate : Option Nat)
    (agentFilter boundFilter : String) (data : List DataEntry) : List DataEntry :=
  data.filter fun entry =>
    overviewDateOk toTime startDate endDate entry &&
    (agentFilter = "all" || entry.salesPerson = agentFilter) &&
    (boundFilter = "all" ||
      match getPathfinderBound entry.salesEmail with
      | none => false
      | some entryBound => entryBound = boundFilter)

/-- `filterKissData` from `src/pages/Overview.tsx`: date range, agent and
(`bound`-field) bound filter over KISS overview entries. -/
def filterKissData (toTime : String → Nat) (startDate endDate : Option Nat)
    (agentFilter boundFilter : String) (data : List DataEntry) : List DataEntry :=
  data.filter fun entry =>
    overviewDateOk toTime startDate endDate entry &&
    (agentFilter = "all" || entry.salesPerson = agentFilter) &&
    (boundFilter = "all" ||
      match entry.bound with
      | none => false
      | some b => !(b.toLower.trim = "") && b.toLower.trim = boundFilter)

/-- `PRODUCT_COLORS` from `src/pages/Overview.tsx`. -/
def PRODUCT_COLORS (name : String) : Option String :=
  if name = "Lead Gen" then some "#1E3A8A"
  else if name = "Local SEO" then some "#3B82F6"
  else if name = "LSA" then some "#93C5FD"
  else none

/-- The three bucket counters of the `distribution` object of
`calculateProductDistribution`, in key-insertion order. -/
structure DistCounts where
  leadGen : Nat
  localSEO : Nat
  lsa : Nat
deriving DecidableEq, Repr

/-- One iteration of `data.forEach` in `calculateProductDistribution`:
increment the bucket owned by the product of the entry, if any. -/
def countEntry (d : DistCounts) (entry : DataEntry) : DistCounts :=
  if entry.product = "Lead Gen" then { d with leadGen := d.leadGen + 1 }
  else if entry.product = "Local SEO" then { d with localSEO := d.localSEO + 1 }
  else if entry.product = "LSA" then { d with lsa := d.lsa + 1 }
  else d

/-- One slice of a rendered product-distribution chart. -/
structure ProductDistEntry where
  name : String
  value : Nat
  color : Option String
deriving DecidableEq, Repr

/-- `calculateProductDistribution` from `src/pages/Overview.tsx`: count
entries into the three fixed buckets, drop zero-count buckets, attach the
display colors. -/
def calculateProductDistribution (data : List DataEntry) : List ProductDistEntry :=
  let dist := data.foldl countEntry ⟨0, 0, 0⟩
  (([("Lead Gen", dist.leadGen), ("Local SEO", dist.localSEO), ("LSA", dist.lsa)].filter
      fun p => p.2 > 0).map
    fun p => ⟨p.1, p.2, PRODUCT_COLORS p.1⟩)

/-- The enumerated product names (the keys of the `distribution` object). -/
def productKeys : List String := ["Lead Gen", "Local SEO", "LSA"]

/-- The count a distribution chart shows for a product: the value of its
bucket, or `0` when the bucket was discarded. -/
def bucketValue (out : List ProductDistEntry) (name : String) : Nat :=
  match out.find? (fun e => e.name = name) with
  | none => 0
  | some e => e.value

/-! ### Results list (`src/components/ResultsList.tsx`) -/

/-- JavaScript `a || b` for two plain strings (`""` is falsy). -/
def jsStrOr (a b : String) : String := if a = "" then b else a

/-- `ITEMS_PER_PAGE` from `src/components/ResultsList.tsx`. -/
def ITEMS_PER_PAGE : Nat := 50

/-- The per-salesperson session counters of `filterOptions`
(`salesPersonCounts[name].pathfinder`): sessions of any non-KISS type. -/
def pathfinderCount (results : List BusinessRecord) (name : String) : Nat :=
  results.countP fun r =>
    decide (r.google_full_name = name) && !(decide (r.sessionType = SessionType.kiss))

/-- The per-salesperson session counters of `filterOptions`
(`salesPersonCounts[name].kiss`). -/
def kissCount (results : List BusinessRecord) (name : String) : Nat :=
  results.countP fun r =>
    decide (r.google_full_name = name) && decide (r.sessionType = SessionType.kiss)

/-- The noise-reduction eligibility heuristic: any Pathfinder entries, or
more than 5 KISS entries. -/
def eligibleCounts (pf kiss : Nat) : Bool :=
  decide (0 < pf) || decide (5 < kiss)

/-- `filterOptions.salesPersons` from `src/components/ResultsList.tsx`:
the distinct nonempty salesperson names whose counters pass the eligibility
heuristic, sorted. -/
def salesPersonsOptions (results : List BusinessRecord) : List String :=
  ((((results.map fun r => r.google_full_name).filter fun n => decide (n ≠ "")).dedup).filter
      fun n => eligibleCounts (pathfinderCount results n) (kissCount results n)).mergeSort
    fun a b => decide (a ≤ b)

/-- The filter control state of the results list. -/
structure ResultsFilters where
  searchQuery : String
  productFilter : String
  salesPersonFilter : String
  contractLengthFilter : String
  dateFrom : Option Nat
  dateTo : Option Nat
deriving DecidableEq, Repr

/-- The free-text match of the results-list filter: case-insensitive
substring match against client name, salesperson name, product and website
URL (a `null` product matches nothing). -/
def matchesSearch (q : String) (r : BusinessRecord) : Bool :=
  String.containsSubstr r.client_name.toLower q.toSubstring ||
  String.containsSubstr r.google_full_name.toLower q.toSubstring ||
  (match r.product with
   | none => false
   | some p => String.containsSubstr p.toLower q.toSubstring) ||
  String.containsSubstr r.website_url.toLower q.toSubstring

/-- The date-range test of the results-list filter
(`src/components/ResultsList.tsx`, lines 90–99): the `timestamp` of the record
must not be before `dateFrom` (used as-is) nor after the end of the day of `dateTo`. -/
def resultsDateOk (toTime : String → Nat) (dateFrom dateTo : Option Nat)
    (r : BusinessRecord) : Bool :=
  (match dateFrom with
   | none => true
   | some f => !(toTime r.timestamp < f)) &&
  (match dateTo with
   | none => true
   | some t => !(toTime r.timestamp > endOfDay t))

/-- The filter predicate of `filteredAndSortedResults`
(`src/components/ResultsList.tsx`, lines 77–101): all active filters must
pass. -/
def matchesFilters (toTime : String → Nat) (f : ResultsFilters)
    (r : BusinessRecord) : Bool :=
  (if f.searchQuery = "" then true else matchesSearch f.searchQuery.toLower r) &&
  (decide (f.productFilter = "all") || decide (r.product = some f.productFilter)) &&
  (decide (f.salesPersonFilter = "all") || decide (r.google_full_name = f.salesPersonFilter)) &&
  (decide (f.contractLengthFilter = "all") ||
    decide (r.contract_length = some f.contractLengthFilter)) &&
  resultsDateOk toTime f.dateFrom f.dateTo r

/-- The filter step of `filteredAndSortedResults`. -/
def filteredResults (toTime : String → Nat) (f : ResultsFilters)
    (results : List BusinessRecord) : List BusinessRecord :=
  results.filter (matchesFilters toTime f)

/-- The sortable columns (`SortField` in `src/components/ResultsList.tsx`). -/
inductive SortField where
  | google_full_name
  | client_name
  | product
  | timestamp
  | progress
  | status
  | sessionType
deriving DecidableEq, Repr

/-- A sort direction (`SortDir`). -/
inductive SortDir where
  | asc
  | desc
deriving DecidableEq, Repr

/-- `localeCompare`, modelled as lexicographic string comparison yielding
the sign values `-1 / 0 / 1`. -/
def strCmp (a b : String) : ℚ :=
  if a < b then -1 else if b < a then 1 else 0

/-- The wire value of the `_sessionType` tag. -/
def sessionTypeStr : SessionType → String
  | SessionType.pathfinder => "pathfinder"
  | SessionType.kiss => "kiss"

/-- The `switch (sortField)` comparator body of `filteredAndSortedResults`
(`src/components/ResultsList.tsx`, lines 104–131): the pre-direction
comparison value `cmp`. -/
def recordCmp (toTime : String → Nat) (field : SortField)
    (a b : BusinessRecord) : ℚ :=
  match field with
  | SortField.google_full_name => strCmp a.google_full_name b.google_full_name
  | SortField.client_name => strCmp a.client_name b.client_name
  | SortField.product => strCmp (a.product.getD "") (b.product.getD "")
  | SortField.timestamp => (toTime a.timestamp : ℚ) - (toTime b.timestamp : ℚ)
  | SortField.progress =>
      (if 0 < a.total_steps then (a.step : ℚ) / (a.total_steps : ℚ) else 0) -
        (if 0 < b.total_steps then (b.step : ℚ) / (b.total_steps : ℚ) else 0)
  | SortField.status =>
      ((if a.total_steps ≤ a.step then 1 else 0) : ℚ) -
        ((if b.total_steps ≤ b.step then 1 else 0) : ℚ)
  | SortField.sessionType =>
      strCmp (sessionTypeStr a.sessionType) (sessionTypeStr b.sessionType)

/-- The comparator actually passed to `sort`: `cmp` for ascending,
`-cmp` for descending. -/
def dirCmp (toTime : String → Nat) (field : SortField) (dir : SortDir)
    (a b : BusinessRecord) : ℚ :=
  match dir with
  | SortDir.asc => recordCmp toTime field a b
  | SortDir.desc => -recordCmp toTime field a b

/-- The sort step of `filteredAndSortedResults`: a stable sort placing `a`
no later than `b` whenever the comparator is ≤ 0. -/
def sortedResults (toTime : String → Nat) (field : SortField) (dir : SortDir)
    (l : List BusinessRecord) : List BusinessRecord :=
  l.mergeSort fun a b => decide (dirCmp toTime field dir a b ≤ 0)

/-- `totalPages` from `src/components/ResultsList.tsx`:
`Math.max(1, Math.ceil(n / ITEMS_PER_PAGE))`. -/
def totalPages (n : Nat) : Nat :=
  max 1 ((n + (ITEMS_PER_PAGE - 1)) / ITEMS_PER_PAGE)

/-- `paginatedResults`: the slice
`[(currentPage - 1) * ITEMS_PER_PAGE, currentPage * ITEMS_PER_PAGE)`. -/
def paginatedResults (l : List BusinessRecord) (currentPage : Nat) : List BusinessRecord :=
  (l.drop ((currentPage - 1) * ITEMS_PER_PAGE)).take ITEMS_PER_PAGE

/-- The `isComplete` derivation of a results-table row
(`src/components/ResultsList.tsx`, line 347): `record.step >= record.total_steps`. -/
def resultsRowIsComplete (r : BusinessRecord) : Bool :=
  decide (r.total_steps ≤ r.step)

/-- The `isComplete` derivation of the business-detail view
(`BusinessDetail`, line 71): `record.step >= record.total_steps`. -/
def businessDetailIsComplete (r : BusinessRecord) : Bool :=
  decide (r.total_steps ≤ r.step)

/-! ### Sales leaderboard (`src/pages/SalesLeaderboard.tsx`) -/

/-- The session-type filter control of the leaderboard. -/
inductive SessionTypeFilter where
  | all
  | pathfinder
  | kiss
deriving DecidableEq, Repr

/-- The type test of `filteredSessions`: pass unless a specific type is
selected and the tag of the session differs. -/
def typeMatches (f : SessionTypeFilter) (s : BusinessRecord) : Bool :=
  match f with
  | SessionTypeFilter.all => true
  | SessionTypeFilter.pathfinder => decide (s.sessionType = SessionType.pathfinder)
  | SessionTypeFilter.kiss => decide (s.sessionType = SessionType.kiss)

/-- The date test of `filteredSessions` (`src/pages/SalesLeaderboard.tsx`,
lines 88–94), against `timestamp || start_time`: the lower boundary is used
as-is, the upper is moved to end-of-day. -/
def leaderboardDateOk (toTime : String → Nat) (dFrom dTo : Option Nat)
    (s : BusinessRecord) : Bool :=
  let d := toTime (jsStrOr s.timestamp s.start_time)
  (match dFrom with
   | none => true
   | some f => !(d < f)) &&
  (match dTo with
   | none => true
   | some t => !(d > endOfDay t))

/-- `filteredSessions` from `src/pages/SalesLeaderboard.tsx`. -/
def filteredSessions (toTime : String → Nat) (ftype : SessionTypeFilter)
    (dFrom dTo : Option Nat) (sessions : List BusinessRecord) : List BusinessRecord :=
  sessions.filter fun s => typeMatches ftype s && leaderboardDateOk toTime dFrom dTo s

/-- `SalespersonStats` from `src/pages/SalesLeaderboard.tsx`. -/
structure SalespersonStats where
  name : String
  pathfinderSessions : List BusinessRecord
  kissSessions : List BusinessRecord
  totalSessions : Nat
  averagePercentComplete : ℚ
  averageStep : ℚ
  completedSessions : Nat
deriving DecidableEq, Repr

/-- A freshly created stats entry for `name` (`statsMap.set(name, {...})`). -/
def emptyStats (name : String) : SalespersonStats :=
  ⟨name, [], [], 0, 0, 0, 0⟩

/-- One iteration of `filteredSessions.forEach` applied to an existing stats
entry: push the session into its per-type list, bump `totalSessions`, bump
`completedSessions` when `step >= total_steps`. -/
def updateStats (g : SalespersonStats) (s : BusinessRecord) : SalespersonStats :=
  if s.sessionType = SessionType.kiss then
    { g with
      kissSessions := g.kissSessions ++ [s]
      totalSessions := g.totalSessions + 1
      completedSessions :=
        if s.total_steps ≤ s.step then g.completedSessions + 1 else g.completedSessions }
  else
    { g with
      pathfinderSessions := g.pathfinderSessions ++ [s]
      totalSessions := g.totalSessions + 1
      completedSessions :=
        if s.total_steps ≤ s.step then g.completedSessions + 1 else g.completedSessions }

/-- Locate the stats entry keyed by the name of the session (insertion-ordered
map semantics) and update it, creating it at the end on a miss. -/
def insertSession : List SalespersonStats → BusinessRecord → List SalespersonStats
  | [], s => [updateStats (emptyStats s.google_full_name) s]
  | g :: rest, s =>
    if g.name = s.google_full_name then updateStats g s :: rest
    else g :: insertSession rest s

/-- One iteration of `filteredSessions.forEach` in `leaderboardStats`:
sessions with a falsy name are skipped (`if (!name) return`). -/
def addSession (m : List SalespersonStats) (s : BusinessRecord) : List SalespersonStats :=
  if s.google_full_name = "" then m else insertSession m s

/-- The second pass of `leaderboardStats` (`statsMap.forEach`): fill in the
two averages from the accumulated per-type session lists. -/
def computeAverages (g : SalespersonStats) : SalespersonStats :=
  let sess := g.pathfinderSessions ++ g.kissSessions
  let totalPercent : ℚ :=
    (sess.map fun s =>
      if 0 < s.total_steps then (s.step : ℚ) / (s.total_steps : ℚ) * 100 else 0).sum
  let totalSteps : ℚ := (sess.map fun s => (s.step : ℚ)).sum
  { g with
    averagePercentComplete := if 0 < g.totalSessions then totalPercent / (g.totalSessions : ℚ) else 0
    averageStep := if 0 < g.totalSessions then totalSteps / (g.totalSessions : ℚ) else 0 }

/-- The grouped per-salesperson statistics, before the noise filter and the
ranking sort. -/
def leaderboardGroups (sessions : List BusinessRecord) : List SalespersonStats :=
  (sessions.foldl addSession []).map computeAverages

/-- The noise filter of `leaderboardStats` (`src/pages/SalesLeaderboard.tsx`,
lines 141–145), branching on the session-type filter. -/
def leaderboardKeep (ftype : SessionTypeFilter) (g : SalespersonStats) : Bool :=
  match ftype with
  | SessionTypeFilter.kiss => decide (5 < g.kissSessions.length)
  | SessionTypeFilter.pathfinder => decide (0 < g.pathfinderSessions.length)
  | SessionTypeFilter.all =>
    decide (0 < g.pathfinderSessions.length) || decide (5 < g.kissSessions.length)

/-- `leaderboardStats` from `src/pages/SalesLeaderboard.tsx`: group, average,
noise-filter, and rank descending by average percent complete. -/
def leaderboardStats (ftype : SessionTypeFilter)
    (sessions : List BusinessRecord) : List SalespersonStats :=
  ((leaderboardGroups sessions).filter (leaderboardKeep ftype)).mergeSort fun a b =>
    decide (b.averagePercentComplete - a.averagePercentComplete ≤ 0)

/-! ### Overview agent options (`allAgents` in `src/pages/Overview.tsx`) -/

/-- `agentCounts[agent].pathfinder` from `allAgents`. -/
def agentPathfinderCount (pf : List DataEntry) (name : String) : Nat :=
  pf.countP fun e => decide (e.salesPerson = name)

/-- `agentCounts[agent].kiss` from `allAgents`. -/
def agentKissCount (kiss : List DataEntry) (name : String) : Nat :=
  kiss.countP fun e => decide (e.salesPerson = name)

/-- `allAgents` from `src/pages/Overview.tsx`: the distinct agent names of
both overview feeds whose counters pass the eligibility heuristic, sorted. -/
def allAgents (pf kiss : List DataEntry) : List String :=
  ((((pf.map fun e => e.salesPerson) ++ (kiss.map fun e => e.salesPerson)).dedup).filter
      fun n => eligibleCounts (agentPathfinderCount pf n) (agentKissCount kiss n)).mergeSort
    fun a b => decide (a ≤ b)

/-- `combinedData` from `src/pages/Overview.tsx`:
`[...filteredPathfinder, ...filteredKiss]`. -/
def combinedData (filteredPathfinder filteredKiss : List DataEntry) : List DataEntry :=
  filteredPathfinder ++ filteredKiss

/-- The date-range acceptance test as the specification words it (spec §4.3):
the timestamp lies inclusively within the range after the lower boundary is
normalized to start-of-day and the upper boundary to end-of-day.  Written
from the words of the spec, for comparison with the `resultsDateOk` of the code
and `overviewDateOk`. -/
def specDateOk (toTime : String → Nat) (dateFrom dateTo : Option Nat)
    (ts : String) : Bool :=
  (match dateFrom with
   | none => true
   | some f => decide (startOfDay f ≤ toTime ts)) &&
  (match dateTo with
   | none => true
   | some t => decide (toTime ts ≤ endOfDay t))

/-! ### Concrete sample data for witnesses and counterexamples -/

/-- A sample complete Pathfinder record (salesperson "A"). -/
def recA : BusinessRecord :=
  { id := "1"
    session_id := "s1"
    google_id := "gid-a"
    google_full_name := "A"
    google_email := "a@example.com"
    step := 8
    total_steps := 8
    client_name := "Client One"
    website_url := "https://one.example"
    diagnostic_answers := "\x7b\x7d"
    product := some "Lead Gen"
    contract_length := some "12 months"
    start_time := "2024-01-05"
    timestamp := "2024-01-10"
    sessionType := SessionType.pathfinder }

/-- A sample Pathfinder record whose salesperson name is empty. -/
def recNoName : BusinessRecord :=
  { recA with id := "2", session_id := "s2", google_id := "", google_full_name := "" }

/-- A sample KISS-origin record (salesperson "Bob"). -/
def recBobKiss : BusinessRecord :=
  { recA with
    id := "3"
    session_id := "s3"
    google_id := ""
    google_full_name := "Bob"
    step := 1
    total_steps := 2
    sessionType := SessionType.kiss }

/-- A raw KISS record with every optional field absent. -/
def kissEmpty : KissRawRecord :=
  { id := "k1"
    data :=
      { clientUrl := none
        createdAt := none
        sessionId := none
        updatedAt := none
        prospectName := none
        currentScreen := none
        contractLength := none
        salesPersonName := none
        selectedProduct := none
        recommendedProduct := none }
    created_at := none
    updated_at := none
    completed := false }

/-- A trivial date parse used to instantiate `toTime` in witnesses. -/
def toTimeLen (s : String) : Nat := s.length

/-- A neutral filter set: no text query, every select on `"all"`, no dates. -/
def neutralFilters : ResultsFilters :=
  { searchQuery := ""
    productFilter := "all"
    salesPersonFilter := "all"
    contractLengthFilter := "all"
    dateFrom := none
    dateTo := none }

/-- The running invariant of the leaderboard grouping pass, for sessions
drawn from a pool satisfying `P`: the completion counter counts exactly the sessions of the group with `step ≥ total_steps`, the session counter counts all
of them, and each per-type list holds sessions of that type only. -/
def GroupCore (P : BusinessRecord → Prop) (g : SalespersonStats) : Prop :=
  g.completedSessions =
    (g.pathfinderSessions ++ g.kissSessions).countP (fun s => decide (s.total_steps ≤ s.step)) ∧
  g.totalSessions = (g.pathfinderSessions ++ g.kissSessions).length ∧
  (∀ s ∈ g.pathfinderSessions, P s ∧ s.sessionType = SessionType.pathfinder) ∧
  (∀ s ∈ g.kissSessions, P s ∧ s.sessionType = SessionType.kiss)

/-- The total session count across an accumulator of stats entries. -/
def sumTotal (m : List SalespersonStats) : Nat :=
  (m.map fun g => g.totalSessions).sum

/-! ## Theorems -/

theorem groupCore_emptyStats (P : BusinessRecord → Prop) (n : String) :
    GroupCore P (emptyStats n) := by
  refine ⟨rfl, rfl, ?_, ?_⟩ <;> simp [emptyStats]

theorem groupCore_updateStats {P : BusinessRecord → Prop} {g : SalespersonStats}
    {s : BusinessRecord} (hg : GroupCore P g) (hs : P s) : GroupCore P (updateStats g s) := by
  obtain ⟨h1, h2, h3, h4⟩ := hg
  by_cases hk : s.sessionType = SessionType.kiss
  · refine ⟨?_, ?_, ?_, ?_⟩
    · simp only [updateStats, hk, if_true]
      by_cases hc : s.total_steps ≤ s.step <;>
        simp only [List.countP_append, List.countP_cons, List.countP_nil, hc, decide_True,
          decide_False, if_true, if_false, decide_eq_true_eq] at h1 ⊢ <;>
        simp [hc, h1] <;> omega
    · simp only [updateStats, hk, if_true]
      simp [h2]
      omega
    · simp only [updateStats, hk, if_true]
      exact h3
    · simp only [updateStats, hk, if_true]
      intro x hx
      rcases List.mem_append.mp hx with hx | hx
      · exact h4 x hx
      · rcases List.mem_singleton.mp hx with rfl
        exact ⟨hs, hk⟩
  · have hp : s.sessionType = SessionType.pathfinder := by
      cases h : s.sessionType
      · rfl
      · exact absurd h hk
    refine ⟨?_, ?_, ?_, ?_⟩
    · simp only [updateStats, hk, if_false]
      by_cases hc : s.total_steps ≤ s.step <;>
        simp only [List.countP_append, List.countP_cons, List.countP_nil, hc, decide_True,
          decide_False, if_true, if_false, decide_eq_true_eq] at h1 ⊢ <;>
        simp [hc, h1] <;> omega
    · simp only [updateStats, hk, if_false]
      simp [h2]
      omega
    · simp only [updateStats, hk, if_false]
      intro x hx
      rcases List.mem_append.mp hx with hx | hx
      · exact h3 x hx
      · rcases List.mem_singleton.mp hx with rfl
        exact ⟨hs, hp⟩
    · simp only [updateStats, hk, if_false]
      exact h4

theorem groupCore_insertSession {P : BusinessRecord → Prop} :
    ∀ (m : List SalespersonStats) (s : BusinessRecord),
      (∀ g ∈ m, GroupCore P g) → P s → ∀ g ∈ insertSession m s, GroupCore P g := by
  intro m s hm hs
  induction m with
  | nil =>
    intro g hg
    rcases List.mem_singleton.mp hg with rfl
    exact groupCore_updateStats (groupCore_emptyStats P _) hs
  | cons a rest ih =>
    intro g hg
    by_cases hn : a.name = s.google_full_name
    · simp only [insertSession, hn, if_true] at hg
      rcases List.mem_cons.mp hg with rfl | hg
      · exact groupCore_updateStats (hm a (List.mem_cons_self a rest)) hs
      · exact hm g (List.mem_cons_of_mem a hg)
    · simp only [insertSession, hn, if_false] at hg
      rcases List.mem_cons.mp hg with rfl | hg
      · exact hm g (List.mem_cons_self g rest)
      · exact ih (fun x hx => hm x (List.mem_cons_of_mem a hx)) g hg

theorem groupCore_foldl {P : BusinessRecord → Prop} :
    ∀ (l : List BusinessRecord) (m : List SalespersonStats),
      (∀ s ∈ l, P s) → (∀ g ∈ m, GroupCore P g) →
      ∀ g ∈ l.foldl addSession m, GroupCore P g := by
  intro l
  induction l with
  | nil => intro m _ hm; simpa using hm
  | cons s rest ih =>
    intro m hl hm
    simp only [List.foldl_cons]
    apply ih
    · exact fun x hx => hl x (List.mem_cons_of_mem s hx)
    · unfold addSession
      split
      · exact hm
      · exact groupCore_insertSession m s hm (hl s (List.mem_cons_self s rest))

theorem computeAverages_core (g : SalespersonStats) :
    (computeAverages g).pathfinderSessions = g.pathfinderSessions ∧
    (computeAverages g).kissSessions = g.kissSessions ∧
    (computeAverages g).totalSessions = g.totalSessions ∧
    (computeAverages g).completedSessions = g.completedSessions ∧
    (computeAverages g).name = g.name :=
  ⟨rfl, rfl, rfl, rfl, rfl⟩

theorem groupCore_leaderboardGroups {P : BusinessRecord → Prop}
    (sessions : List BusinessRecord) (hP : ∀ s ∈ sessions, P s) :
    ∀ g ∈ leaderboardGroups sessions, GroupCore P g := by
  intro g hg
  obtain ⟨g₀, hg₀, rfl⟩ := List.mem_map.mp hg
  have h := groupCore_foldl sessions [] hP (by simp) g₀ hg₀
  obtain ⟨h1, h2, h3, h4⟩ := h
  exact ⟨h1, h2, h3, h4⟩

/-- C8: normalization of a raw KISS record is total (never throws) and
produces a KISS-tagged unified record in which a missing step number
defaults to 0, missing salesperson and client names default to "Unknown",
the serialized diagnostics field is the empty-object literal, and
`total_steps` is the fixed positive constant 2. -/
theorem normalizeKiss_defaults (kiss : KissRawRecord) :
    (kiss.data.currentScreen = none → (normalizeKissRecord kiss).step = 0) ∧
    (kiss.data.salesPersonName = none →
      (normalizeKissRecord kiss).google_full_name = "Unknown") ∧
    (kiss.data.prospectName = none → (normalizeKissRecord kiss).client_name = "Unknown") ∧
    (normalizeKissRecord kiss).diagnostic_answers = "\x7b\x7d" ∧
    (normalizeKissRecord kiss).total_steps = 2 ∧
    0 < (normalizeKissRecord kiss).total_steps ∧
    (normalizeKissRecord kiss).sessionType = SessionType.kiss := by
  refine ⟨fun h => ?_, fun h => ?_, fun h => ?_, rfl, rfl, by norm_num [normalizeKissRecord], rfl⟩ <;>
    simp [normalizeKissRecord, jsOrI, jsOrS, h]

/-- Witness for C8 at a fully-absent raw record. -/
theorem normalizeKiss_defaults_witness :
    (normalizeKissRecord kissEmpty).step = 0 ∧
    (normalizeKissRecord kissEmpty).google_full_name = "Unknown" ∧
    (normalizeKissRecord kissEmpty).client_name = "Unknown" ∧
    (normalizeKissRecord kissEmpty).diagnostic_answers = "\x7b\x7d" ∧
    (normalizeKissRecord kissEmpty).total_steps = 2 := by
  have h := normalizeKiss_defaults kissEmpty
  exact ⟨h.1 rfl, h.2.1 rfl, h.2.2.1 rfl, h.2.2.2.1, h.2.2.2.2.1⟩

/-- C3: the filter step of the results list is pure; its output only
contains elements of its input, and filtering its own output changes
nothing. -/
theorem filteredResults_subset_idempotent (toTime : String → Nat)
    (f : ResultsFilters) (l : List BusinessRecord) :
    (∀ r ∈ filteredResults toTime f l, r ∈ l) ∧
    filteredResults toTime f (filteredResults toTime f l) = filteredResults toTime f l := by
  constructor
  · intro r hr
    exact (List.mem_filter.mp hr).1
  · simp [filteredResults, List.filter_filter]

/-- Witness for C3: the neutral filter keeps the one-record list, and the
subset and idempotence conclusions hold there. -/
theorem filteredResults_subset_idempotent_witness :
    recA ∈ filteredResults toTimeLen neutralFilters [recA] ∧ recA ∈ [recA] ∧
    filteredResults toTimeLen neutralFilters (filteredResults toTimeLen neutralFilters [recA]) =
      filteredResults toTimeLen neutralFilters [recA] := by
  have h := filteredResults_subset_idempotent toTimeLen neutralFilters [recA]
  have hmem : recA ∈ filteredResults toTimeLen neutralFilters [recA] := by decide
  exact ⟨hmem, h.1 recA hmem, h.2⟩

/-- C7 (amended): in the results list the lower date boundary is compared
as-is — a record passes iff `dateFrom ≤ timestamp` and
`timestamp ≤ endOfDay dateTo`; in the overview both boundaries are
normalized — an entry passes iff `startOfDay start ≤ timeCreated` and
`timeCreated ≤ endOfDay end`. -/
theorem date_filter_boundaries (toTime : String → Nat) (dFrom dTo : Option Nat)
    (r : BusinessRecord) (e : DataEntry) :
    (resultsDateOk toTime dFrom dTo r = true ↔
      (∀ f ∈ dFrom, f ≤ toTime r.timestamp) ∧
      (∀ t ∈ dTo, toTime r.timestamp ≤ endOfDay t)) ∧
    (overviewDateOk toTime dFrom dTo e = true ↔
      (∀ s ∈ dFrom, startOfDay s ≤ toTime e.timeCreated) ∧
      (∀ t ∈ dTo, toTime e.timeCreated ≤ endOfDay t)) := by
  constructor
  · cases dFrom <;> cases dTo <;>
      simp [resultsDateOk, Nat.not_lt, Option.mem_def]
  · cases dFrom <;> cases dTo <;>
      simp [overviewDateOk, Nat.not_lt, Option.mem_def]

/-- Counterexample for C7 as stated: with the from-boundary at noon of day 0
and a record timestamp at 6:00 of day 0, start-of-day normalization would
let the record through (`specDateOk`), but the results-list filter rejects
it — its lower boundary is not normalized. -/
theorem date_filter_not_normalized_counterexample :
    resultsDateOk (fun _ => 21600000) (some 43200000) none recA = false ∧
    specDateOk (fun _ => 21600000) (some 43200000) none recA.timestamp = true := by
  decide

/-- C2: in the results table, in the record detail view and in the
leaderboard, a record is marked complete if and only if
`step ≥ total_steps`; in particular the `completedSessions` of a leaderboard group counts exactly its sessions with `step ≥ total_steps`. -/
theorem completion_iff_step_ge_total :
    (∀ r : BusinessRecord, resultsRowIsComplete r = true ↔ r.total_steps ≤ r.step) ∧
    (∀ r : BusinessRecord, businessDetailIsComplete r = true ↔ r.total_steps ≤ r.step) ∧
    (∀ (ftype : SessionTypeFilter) (sessions : List BusinessRecord),
      ∀ g ∈ leaderboardStats ftype sessions,
        g.completedSessions =
          (g.pathfinderSessions ++ g.kissSessions).countP
            fun s => decide (s.total_steps ≤ s.step)) := by
  refine ⟨fun r => by simp [resultsRowIsComplete], fun r => by simp [businessDetailIsComplete],
    fun ftype sessions g hg => ?_⟩
  unfold leaderboardStats at hg
  rw [List.mem_mergeSort] at hg
  have hg' := (List.mem_filter.mp hg).1
  exact (groupCore_leaderboardGroups (P := fun _ => True) sessions (by simp) g hg').1

/-- Witness for C2 at a one-record session list whose single group is
visible on the leaderboard. -/
theorem completion_iff_step_ge_total_witness :
    computeAverages (updateStats (emptyStats "A") recA) ∈
      leaderboardStats SessionTypeFilter.all [recA] ∧
    (computeAverages (updateStats (emptyStats "A") recA)).completedSessions =
      ((computeAverages (updateStats (emptyStats "A") recA)).pathfinderSessions ++
          (computeAverages (updateStats (emptyStats "A") recA)).kissSessions).countP
        (fun s => decide (s.total_steps ≤ s.step)) ∧
    resultsRowIsComplete recA = true := by
  have h0 : leaderboardGroups [recA] = [computeAverages (updateStats (emptyStats "A") recA)] :=
    rfl
  have hmem : computeAverages (updateStats (emptyStats "A") recA) ∈
      leaderboardStats SessionTypeFilter.all [recA] := by
    unfold leaderboardStats
    rw [List.mem_mergeSort, h0]
    refine List.mem_filter.mpr ⟨List.mem_singleton_self _, ?_⟩
    decide
  have h := completion_iff_step_ge_total
  exact ⟨hmem, h.2.2 SessionTypeFilter.all [recA] _ hmem, (h.1 recA).mpr (by decide)⟩

theorem sumTotal_insertSession :
    ∀ (m : List SalespersonStats) (s : BusinessRecord),
      sumTotal (insertSession m s) = sumTotal m + 1 := by
  intro m s
  induction m with
  | nil => simp [insertSession, sumTotal, updateStats, emptyStats]; split <;> rfl
  | cons a rest ih =>
    by_cases hn : a.name = s.google_full_name
    · simp only [insertSession, hn, if_true, sumTotal, List.map_cons, List.sum_cons]
      have : (updateStats a s).totalSessions = a.totalSessions + 1 := by
        unfold updateStats; split <;> rfl
      rw [this]
      omega
    · simp only [insertSession, hn, if_false, sumTotal, List.map_cons, List.sum_cons] at ih ⊢
      omega

theorem sumTotal_foldl :
    ∀ (l : List BusinessRecord) (m : List SalespersonStats),
      sumTotal (l.foldl addSession m) =
        sumTotal m + l.countP fun s => decide (s.google_full_name ≠ "") := by
  intro l
  induction l with
  | nil => simp
  | cons s rest ih =>
    intro m
    simp only [List.foldl_cons, List.countP_cons]
    rw [ih]
    unfold addSession
    by_cases hn : s.google_full_name = "" <;>
      simp [hn, sumTotal_insertSession] <;> omega

/-- C1 (amended): before the noise-eligibility filter, the sum of
`totalSessions` over the salesperson groups of the leaderboard equals the number
of filtered records with a nonempty salesperson name (records whose name is
empty are skipped by the grouping pass and belong to no group). -/
theorem leaderboard_totalSessions_sum (sessions : List BusinessRecord) :
    ((leaderboardGroups sessions).map fun g => g.totalSessions).sum =
      sessions.countP fun s => decide (s.google_full_name ≠ "") := by
  unfold leaderboardGroups
  rw [List.map_map]
  have hcomp : (fun g : SalespersonStats => g.totalSessions) ∘ computeAverages =
      fun g : SalespersonStats => g.totalSessions := by
    funext g
    rfl
  rw [hcomp]
  have := sumTotal_foldl sessions []
  simpa [sumTotal] using this

/-- Counterexample for C1 as stated: a single KISS record named "Bob" is one
filtered record, yet the leaderboard aggregation produces no group for it
(the noise filter drops salespeople with at most 5 KISS sessions), so the
group sums to 0, not 1. -/
theorem leaderboard_totalSessions_sum_counterexample :
    ¬ (((leaderboardStats SessionTypeFilter.all [recBobKiss]).map fun g => g.totalSessions).sum =
        ([recBobKiss] : List BusinessRecord).length) := by
  have h : (leaderboardGroups [recBobKiss]).filter (leaderboardKeep SessionTypeFilter.all) = [] := by
    decide
  unfold leaderboardStats
  rw [h]
  simp

theorem join_chunks {α : Type} (c : Nat) :
    ∀ (k : Nat) (l : List α),
      ((List.range k).map fun i => (l.drop (i * c)).take c).flatten = l.take (k * c) := by
  intro k
  induction k with
  | zero => intro l; simp
  | succ n ih =>
    intro l
    rw [List.range_succ, List.map_append, List.flatten_append]
    simp only [List.map_cons, List.map_nil, List.flatten_cons, List.flatten_nil,
      List.append_nil]
    rw [ih, Nat.succ_mul, List.take_add]

/-- C4: pagination at fixed page size 50 — `totalPages` is
`max 1 (ceil n / 50)`; the page slices in order concatenate back to the
whole filtered list (so they are disjoint and complete); their sizes sum to
the filtered count; when the list is nonempty the last page holds between 1
and 50 records; when it is empty there is exactly one page, and it is
empty. -/
theorem pagination_partition (l : List BusinessRecord) :
    totalPages l.length = max 1 ((l.length + ITEMS_PER_PAGE - 1) / ITEMS_PER_PAGE) ∧
    ((List.range (totalPages l.length)).map fun i => paginatedResults l (i + 1)).flatten = l ∧
    ((List.range (totalPages l.length)).map fun i => (paginatedResults l (i + 1)).length).sum
      = l.length ∧
    (0 < l.length →
      1 ≤ (paginatedResults l (totalPages l.length)).length ∧
      (paginatedResults l (totalPages l.length)).length ≤ ITEMS_PER_PAGE) ∧
    (l.length = 0 → totalPages l.length = 1 ∧ paginatedResults l 1 = []) := by
  have hcover : l.length ≤ totalPages l.length * ITEMS_PER_PAGE := by
    unfold totalPages ITEMS_PER_PAGE
    omega
  have hpr : (fun i => paginatedResults l (i + 1)) =
      fun i => (l.drop (i * ITEMS_PER_PAGE)).take ITEMS_PER_PAGE := by
    funext i
    simp [paginatedResults]
  have hjoin :
      ((List.range (totalPages l.length)).map fun i => paginatedResults l (i + 1)).flatten = l := by
    rw [hpr, join_chunks ITEMS_PER_PAGE (totalPages l.length) l,
      List.take_of_length_le hcover]
  refine ⟨by unfold totalPages ITEMS_PER_PAGE; omega, hjoin, ?_, ?_, ?_⟩
  · have hsum := congrArg List.length hjoin
    rw [List.length_flatten, List.map_map] at hsum
    simpa [Function.comp] using hsum
  · intro hpos
    have hlen : (paginatedResults l (totalPages l.length)).length =
        min ITEMS_PER_PAGE (l.length - (totalPages l.length - 1) * ITEMS_PER_PAGE) := by
      simp [paginatedResults, List.length_take, List.length_drop, Nat.min_comm]
    rw [hlen]
    unfold totalPages ITEMS_PER_PAGE at *
    omega
  · intro h0
    have : l = [] := List.length_eq_zero.mp h0
    subst this
    exact ⟨by decide, rfl⟩

/-- Witness for C4 at a one-record list. -/
theorem pagination_partition_witness :
    0 < ([recA] : List BusinessRecord).length ∧
    1 ≤ (paginatedResults [recA] (totalPages ([recA] : List BusinessRecord).length)).length ∧
    (paginatedResults [recA] (totalPages ([recA] : List BusinessRecord).length)).length ≤
      ITEMS_PER_PAGE ∧
    ((List.range (totalPages ([recA] : List BusinessRecord).length)).map
        fun i => paginatedResults [recA] (i + 1)).flatten = [recA] := by
  have h := pagination_partition [recA]
  have hpos : 0 < ([recA] : List BusinessRecord).length := by decide
  exact ⟨hpos, (h.2.2.2.1 hpos).1, (h.2.2.2.1 hpos).2, h.2.1⟩

theorem foldl_countEntry :
    ∀ (data : List DataEntry) (d : DistCounts),
      data.foldl countEntry d =
        ⟨d.leadGen + (data.countP fun e => decide (e.product = "Lead Gen")),
         d.localSEO + (data.countP fun e => decide (e.product = "Local SEO")),
         d.lsa + (data.countP fun e => decide (e.product = "LSA"))⟩ := by
  intro data
  induction data with
  | nil => intro d; simp
  | cons e rest ih =>
    intro d
    simp only [List.foldl_cons, List.countP_cons]
    rw [ih (countEntry d e)]
    by_cases h1 : e.product = "Lead Gen"
    · simp [countEntry, h1, DistCounts.mk.injEq]
      omega
    · by_cases h2 : e.product = "Local SEO"
      · simp [countEntry, h1, h2, DistCounts.mk.injEq]
        omega
      · by_cases h3 : e.product = "LSA"
        · simp [countEntry, h1, h2, h3, DistCounts.mk.injEq]
          omega
        · simp [countEntry, h1, h2, h3]

theorem countP_productKeys (data : List DataEntry) :
    (data.countP fun e => decide (e.product ∈ productKeys)) =
      (data.countP fun e => decide (e.product = "Lead Gen")) +
      (data.countP fun e => decide (e.product = "Local SEO")) +
      (data.countP fun e => decide (e.product = "LSA")) := by
  have hcong : (fun e : DataEntry => decide (e.product ∈ productKeys)) =
      fun e => decide (e.product = "Lead Gen") || decide (e.product = "Local SEO") ||
        decide (e.product = "LSA") := by
    funext x
    by_cases h1 : x.product = "Lead Gen" <;> by_cases h2 : x.product = "Local SEO" <;>
      by_cases h3 : x.product = "LSA" <;> simp [productKeys, h1, h2, h3]
  rw [hcong]
  induction data with
  | nil => simp
  | cons e rest ih =>
    simp only [List.countP_cons]
    rw [ih]
    by_cases h1 : e.product = "Lead Gen"
    · simp [h1]
      omega
    · by_cases h2 : e.product = "Local SEO"
      · simp [h1, h2]
        omega
      · by_cases h3 : e.product = "LSA"
        · simp [h1, h2, h3]
          omega
        · simp [h1, h2, h3]

theorem calc_dist_eq (data : List DataEntry) :
    calculateProductDistribution data =
      (([("Lead Gen", data.countP fun e => decide (e.product = "Lead Gen")),
         ("Local SEO", data.countP fun e => decide (e.product = "Local SEO")),
         ("LSA", data.countP fun e => decide (e.product = "LSA"))].filter
          fun p => p.2 > 0).map fun p => ⟨p.1, p.2, PRODUCT_COLORS p.1⟩) := by
  simp [calculateProductDistribution, foldl_countEntry data ⟨0, 0, 0⟩]

theorem distribution_shape (c1 c2 c3 : Nat) :
    ((([("Lead Gen", c1), ("Local SEO", c2), ("LSA", c3)].filter fun p => p.2 > 0).map
        fun p => (⟨p.1, p.2, PRODUCT_COLORS p.1⟩ : ProductDistEntry)).map
          fun b => b.value).sum = c1 + c2 + c3 ∧
    (∀ b ∈ (([("Lead Gen", c1), ("Local SEO", c2), ("LSA", c3)].filter fun p => p.2 > 0).map
        fun p => (⟨p.1, p.2, PRODUCT_COLORS p.1⟩ : ProductDistEntry)),
      0 < b.value ∧ b.name ∈ productKeys) ∧
    ((([("Lead Gen", c1), ("Local SEO", c2), ("LSA", c3)].filter fun p => p.2 > 0).map
        fun p => (⟨p.1, p.2, PRODUCT_COLORS p.1⟩ : ProductDistEntry)).map
          fun b => b.name).Nodup := by
  by_cases hc1 : c1 = 0 <;> by_cases hc2 : c2 = 0 <;> by_cases hc3 : c3 = 0 <;>
    refine ⟨?_, ?_, ?_⟩ <;>
    simp [productKeys, Nat.pos_iff_ne_zero, hc1, hc2, hc3] <;>
    omega

/-- C6: the product distribution has one bucket per product of the fixed
set {Lead Gen, Local SEO, LSA}; the emitted bucket counts sum to the number
of entries whose product is one of those names (other products count
nowhere), every emitted bucket has a positive count, and no product name
appears twice. -/
theorem product_distribution_counts (data : List DataEntry) :
    (((calculateProductDistribution data).map fun b => b.value).sum =
      data.countP fun e => decide (e.product ∈ productKeys)) ∧
    (∀ b ∈ calculateProductDistribution data, 0 < b.value ∧ b.name ∈ productKeys) ∧
    ((calculateProductDistribution data).map fun b => b.name).Nodup := by
  rw [calc_dist_eq data, countP_productKeys data]
  exact distribution_shape _ _ _

/-- Witness for C6 at a two-entry list (one recognized product, one not). -/
theorem product_distribution_counts_witness :
    (⟨"Lead Gen", 1, PRODUCT_COLORS "Lead Gen"⟩ : ProductDistEntry) ∈
      calculateProductDistribution
        [⟨"2024-01-05", "A", none, "Lead Gen", none⟩, ⟨"2024-01-06", "B", none, "Telex", none⟩] ∧
    0 < (⟨"Lead Gen", 1, PRODUCT_COLORS "Lead Gen"⟩ : ProductDistEntry).value ∧
    (⟨"Lead Gen", 1, PRODUCT_COLORS "Lead Gen"⟩ : ProductDistEntry).name ∈ productKeys := by
  have hmem : (⟨"Lead Gen", 1, PRODUCT_COLORS "Lead Gen"⟩ : ProductDistEntry) ∈
      calculateProductDistribution
        [⟨"2024-01-05", "A", none, "Lead Gen", none⟩, ⟨"2024-01-06", "B", none, "Telex", none⟩] := by
    decide
  have h := (product_distribution_counts
    [⟨"2024-01-05", "A", none, "Lead Gen", none⟩, ⟨"2024-01-06", "B", none, "Telex", none⟩]).2.1
    _ hmem
  exact ⟨hmem, h.1, h.2⟩

theorem bucketValue_eq_countP (data : List DataEntry) (p : String) (hp : p ∈ productKeys) :
    bucketValue (calculateProductDistribution data) p =
      data.countP fun e => decide (e.product = p) := by
  rw [calc_dist_eq data]
  have hp' : p = "Lead Gen" ∨ p = "Local SEO" ∨ p = "LSA" := by
    simpa [productKeys] using hp
  have hc1 := Nat.eq_zero_or_pos (data.countP fun e => decide (e.product = "Lead Gen"))
  have hc2 := Nat.eq_zero_or_pos (data.countP fun e => decide (e.product = "Local SEO"))
  have hc3 := Nat.eq_zero_or_pos (data.countP fun e => decide (e.product = "LSA"))
  rcases hp' with rfl | rfl | rfl <;>
    rcases hc1 with hc1 | hc1 <;> rcases hc2 with hc2 | hc2 <;> rcases hc3 with hc3 | hc3 <;>
    simp [bucketValue, hc1, hc2, hc3]

/-- C10: the combined product distribution is the bucketwise sum of the two
per-source distributions — for each product of the fixed set, the combined
bucket count equals the Pathfinder bucket count plus the KISS bucket count,
a discarded zero-count bucket counting as 0. -/
theorem combined_distribution_hom (A B : List DataEntry) (p : String)
    (hp : p ∈ productKeys) :
    bucketValue (calculateProductDistribution (combinedData A B)) p =
      bucketValue (calculateProductDistribution A) p +
        bucketValue (calculateProductDistribution B) p := by
  simp only [combinedData]
  rw [bucketValue_eq_countP (A ++ B) p hp, bucketValue_eq_countP A p hp,
    bucketValue_eq_countP B p hp, List.countP_append]

/-- Witness for C10 at singleton feeds. -/
theorem combined_distribution_hom_witness :
    "Lead Gen" ∈ productKeys ∧
    bucketValue
        (calculateProductDistribution
          (combinedData [⟨"2024-01-05", "A", none, "Lead Gen", none⟩]
            [⟨"2024-01-06", "B", none, "Lead Gen", none⟩])) "Lead Gen" =
      bucketValue (calculateProductDistribution [⟨"2024-01-05", "A", none, "Lead Gen", none⟩])
          "Lead Gen" +
        bucketValue (calculateProductDistribution [⟨"2024-01-06", "B", none, "Lead Gen", none⟩])
          "Lead Gen" := by
  have hp : "Lead Gen" ∈ productKeys := by decide
  exact ⟨hp, combined_distribution_hom _ _ "Lead Gen" hp⟩

theorem salesPersonsOptions_mem (results : List BusinessRecord) (name : String)
    (hne : name ≠ "") :
    name ∈ salesPersonsOptions results ↔
      eligibleCounts (pathfinderCount results name) (kissCount results name) = true := by
  unfold salesPersonsOptions
  rw [List.mem_mergeSort, List.mem_filter]
  constructor
  · rintro ⟨-, h⟩
    exact h
  · intro h
    refine ⟨?_, h⟩
    rw [List.mem_dedup, List.mem_filter]
    refine ⟨?_, by simp [hne]⟩
    have hpos : 0 < pathfinderCount results name ∨ 5 < kissCount results name := by
      unfold eligibleCounts at h
      simpa using h
    have hex : ∃ r ∈ results, r.google_full_name = name := by
      rcases hpos with hp | hk
      · unfold pathfinderCount at hp
        obtain ⟨r, hr, hpr⟩ := List.countP_pos_iff.mp hp
        refine ⟨r, hr, ?_⟩
        have := (Bool.and_eq_true_iff.mp hpr).1
        simpa using this
      · have hk0 : 0 < kissCount results name := by omega
        unfold kissCount at hk0
        obtain ⟨r, hr, hpr⟩ := List.countP_pos_iff.mp hk0
        refine ⟨r, hr, ?_⟩
        have := (Bool.and_eq_true_iff.mp hpr).1
        simpa using this
    obtain ⟨r, hr, hrn⟩ := hex
    exact List.mem_map.mpr ⟨r, hr, hrn⟩

theorem allAgents_mem (pf kiss : List DataEntry) (name : String) :
    name ∈ allAgents pf kiss ↔
      eligibleCounts (agentPathfinderCount pf name) (agentKissCount kiss name) = true := by
  unfold allAgents
  rw [List.mem_mergeSort, List.mem_filter]
  constructor
  · rintro ⟨-, h⟩
    exact h
  · intro h
    refine ⟨?_, h⟩
    rw [List.mem_dedup, List.mem_append]
    have hpos : 0 < agentPathfinderCount pf name ∨ 5 < agentKissCount kiss name := by
      unfold eligibleCounts at h
      simpa using h
    rcases hpos with hp | hk
    · unfold agentPathfinderCount at hp
      obtain ⟨e, he, hpe⟩ := List.countP_pos_iff.mp hp
      exact Or.inl (List.mem_map.mpr ⟨e, he, by simpa using hpe⟩)
    · have hk0 : 0 < agentKissCount kiss name := by omega
      unfold agentKissCount at hk0
      obtain ⟨e, he, hpe⟩ := List.countP_pos_iff.mp hk0
      exact Or.inr (List.mem_map.mpr ⟨e, he, by simpa using hpe⟩)

theorem leaderboardKeep_eq_general (toTime : String → Nat) (ftype : SessionTypeFilter)
    (dFrom dTo : Option Nat) (sessions : List BusinessRecord) :
    (leaderboardGroups (filteredSessions toTime ftype dFrom dTo sessions)).filter
        (leaderboardKeep ftype) =
      (leaderboardGroups (filteredSessions toTime ftype dFrom dTo sessions)).filter
        fun g => eligibleCounts g.pathfinderSessions.length g.kissSessions.length := by
  apply List.filter_congr
  intro g hg
  have hP : ∀ s ∈ filteredSessions toTime ftype dFrom dTo sessions,
      typeMatches ftype s = true := by
    intro s hs
    exact (Bool.and_eq_true_iff.mp (List.mem_filter.mp hs).2).1
  have hcore := groupCore_leaderboardGroups
    (P := fun s => typeMatches ftype s = true) _ hP g hg
  obtain ⟨-, -, h3, h4⟩ := hcore
  cases ftype with
  | all => rfl
  | pathfinder =>
    have hk : g.kissSessions = [] := by
      rw [List.eq_nil_iff_forall_not_mem]
      intro s hs
      obtain ⟨hPs, hks⟩ := h4 s hs
      simp only [typeMatches, decide_eq_true_eq] at hPs
      exact SessionType.noConfusion (hPs.symm.trans hks)
    unfold leaderboardKeep eligibleCounts
    rw [hk]
    simp
  | kiss =>
    have hp : g.pathfinderSessions = [] := by
      rw [List.eq_nil_iff_forall_not_mem]
      intro s hs
      obtain ⟨hPs, hps⟩ := h3 s hs
      simp only [typeMatches, decide_eq_true_eq] at hPs
      exact SessionType.noConfusion (hps.symm.trans hPs)
    unfold leaderboardKeep eligibleCounts
    rw [hp]
    simp

/-- C9 (amended): a nonempty salesperson name appears in the results-list
salesperson option list iff that salesperson has at least one Pathfinder
record or more than 5 KISS records (the empty name never appears, even when
its records would qualify); the overview agent list obeys the same rule for
every name; and the noise filter of the leaderboard, applied to groups built from
type-filtered sessions, excludes exactly the groups failing that same
eligibility rule. -/
theorem salesperson_option_eligibility :
    (∀ (results : List BusinessRecord) (name : String), name ≠ "" →
      (name ∈ salesPersonsOptions results ↔
        eligibleCounts (pathfinderCount results name) (kissCount results name) = true)) ∧
    (∀ (pf kiss : List DataEntry) (name : String),
      name ∈ allAgents pf kiss ↔
        eligibleCounts (agentPathfinderCount pf name) (agentKissCount kiss name) = true) ∧
    (∀ (toTime : String → Nat) (ftype : SessionTypeFilter) (dFrom dTo : Option Nat)
        (sessions : List BusinessRecord),
      (leaderboardGroups (filteredSessions toTime ftype dFrom dTo sessions)).filter
          (leaderboardKeep ftype) =
        (leaderboardGroups (filteredSessions toTime ftype dFrom dTo sessions)).filter
          fun g => eligibleCounts g.pathfinderSessions.length g.kissSessions.length) :=
  ⟨salesPersonsOptions_mem, allAgents_mem, leaderboardKeep_eq_general⟩

/-- Witness for C9 at a one-record list and the name "A". -/
theorem salesperson_option_eligibility_witness :
    ("A" : String) ≠ "" ∧
    ("A" ∈ salesPersonsOptions [recA] ↔
      eligibleCounts (pathfinderCount [recA] "A") (kissCount [recA] "A") = true) := by
  have h := salesperson_option_eligibility
  exact ⟨by decide, h.1 [recA] "A" (by decide)⟩

/-- Counterexample for C9 as stated: a Pathfinder record with an empty
salesperson name gives the empty name a positive Pathfinder count, yet the
option list never contains the empty name (`filterOptions` skips falsy
names). -/
theorem salesperson_option_counterexample :
    0 < pathfinderCount [recNoName] "" ∧ "" ∉ salesPersonsOptions [recNoName] := by
  constructor
  · decide
  · unfold salesPersonsOptions
    rw [List.mem_mergeSort]
    decide

theorem cons_eq_append_of_forall_eq {α : Type} :
    ∀ (u : List α) (a : α), (∀ x ∈ u, x = a) → a :: u = u ++ [a] := by
  intro u a
  induction u with
  | nil => intro _; rfl
  | cons x t ih =>
    intro h
    have hx : x = a := h x (List.mem_cons_self x t)
    have ht : a :: t = t ++ [a] := ih fun y hy => h y (List.mem_cons_of_mem x hy)
    calc a :: x :: t = a :: a :: t := by rw [hx]
      _ = a :: (t ++ [a]) := by rw [ht]
      _ = (a :: t) ++ [a] := rfl
      _ = (x :: t) ++ [a] := by rw [hx]

theorem eq_of_perm_of_pairwise_antisymmOn {α : Type} {r : α → α → Prop} :
    ∀ {l₁ l₂ : List α}, l₁.Perm l₂ → l₁.Pairwise r → l₂.Pairwise r →
      (∀ a ∈ l₁, ∀ b ∈ l₁, r a b → r b a → a = b) → l₁ = l₂ := by
  intro l₁
  induction l₁ with
  | nil =>
    intro l₂ hp _ _ _
    exact hp.nil_eq
  | cons a t ih =>
    intro l₂ hp hs₁ hs₂ ha
    have hmem : a ∈ l₂ := hp.subset (List.mem_cons_self a t)
    obtain ⟨u₂, v₂, rfl⟩ := List.append_of_mem hmem
    have hp' : t.Perm (u₂ ++ v₂) := (List.perm_cons a).mp (hp.trans List.perm_middle)
    have hs₂' : (u₂ ++ v₂).Pairwise r := hs₂.sublist (by simp)
    have ht : t = u₂ ++ v₂ :=
      ih hp' (List.pairwise_cons.mp hs₁).2 hs₂' fun x hx y hy hxy hyx =>
        ha x (List.mem_cons_of_mem a hx) y (List.mem_cons_of_mem a hy) hxy hyx
    have hu : ∀ x ∈ u₂, x = a := by
      intro x hx
      have hxa : r x a :=
        (List.pairwise_append.mp hs₂).2.2 x hx a (List.mem_cons_self a v₂)
      have hxt : x ∈ t := by
        rw [ht]
        exact List.mem_append_left v₂ hx
      have hax : r a x := (List.pairwise_cons.mp hs₁).1 x hxt
      exact (ha a (List.mem_cons_self a t) x (List.mem_cons_of_mem a hxt) hax hxa).symm
    rw [ht]
    calc a :: (u₂ ++ v₂) = (a :: u₂) ++ v₂ := rfl
      _ = (u₂ ++ [a]) ++ v₂ := by rw [cons_eq_append_of_forall_eq u₂ a hu]
      _ = u₂ ++ a :: v₂ := by simp

theorem inj_on_of_pairwise_ne {α β : Type} {f : α → β} :
    ∀ {l : List α}, l.Pairwise (fun x y => f x ≠ f y) →
      ∀ a ∈ l, ∀ b ∈ l, f a = f b → a = b := by
  intro l
  induction l with
  | nil =>
    intro _ a ha
    simp at ha
  | cons x t ih =>
    intro hp a ha b hb hf
    obtain ⟨hx, ht⟩ := List.pairwise_cons.mp hp
    rcases List.mem_cons.mp ha with rfl | ha' <;> rcases List.mem_cons.mp hb with rfl | hb'
    · rfl
    · exact absurd hf (hx b hb')
    · exact absurd hf.symm (hx a ha')
    · exact ih ht a ha' b hb' hf

theorem asc_le_iff (toTime : String → Nat) (a b : BusinessRecord) :
    (decide (dirCmp toTime SortField.timestamp SortDir.asc a b ≤ 0) = true) ↔
      toTime a.timestamp ≤ toTime b.timestamp := by
  simp [dirCmp, recordCmp, sub_nonpos]

theorem desc_le_iff (toTime : String → Nat) (a b : BusinessRecord) :
    (decide (dirCmp toTime SortField.timestamp SortDir.desc a b ≤ 0) = true) ↔
      toTime b.timestamp ≤ toTime a.timestamp := by
  simp [dirCmp, recordCmp, neg_sub, sub_nonpos]

/-- C5: on a record list with pairwise distinct (parsed) timestamps, sorting
by the timestamp column descending yields exactly the reverse of sorting it
ascending. -/
theorem timestamp_sort_reverse (toTime : String → Nat) (l : List BusinessRecord)
    (hd : l.Pairwise fun a b => toTime a.timestamp ≠ toTime b.timestamp) :
    sortedResults toTime SortField.timestamp SortDir.desc l =
      (sortedResults toTime SortField.timestamp SortDir.asc l).reverse := by
  unfold sortedResults
  have hinj := inj_on_of_pairwise_ne (f := fun r : BusinessRecord => toTime r.timestamp) hd
  have hsortD :
      (l.mergeSort fun a b =>
          decide (dirCmp toTime SortField.timestamp SortDir.desc a b ≤ 0)).Pairwise
        fun a b => toTime b.timestamp ≤ toTime a.timestamp := by
    have hs := @List.sorted_mergeSort BusinessRecord
      (fun a b => decide (dirCmp toTime SortField.timestamp SortDir.desc a b ≤ 0))
      (fun a b c h₁ h₂ => by
        rw [desc_le_iff] at h₁ h₂ ⊢
        exact Nat.le_trans h₂ h₁)
      (fun a b => by
        rw [Bool.or_eq_true]
        rcases Nat.le_total (toTime a.timestamp) (toTime b.timestamp) with h | h
        · exact Or.inr ((desc_le_iff toTime b a).mpr h)
        · exact Or.inl ((desc_le_iff toTime a b).mpr h))
      l
    exact hs.imp fun h => (desc_le_iff toTime _ _).mp h
  have hsortArev :
      ((l.mergeSort fun a b =>
          decide (dirCmp toTime SortField.timestamp SortDir.asc a b ≤ 0)).reverse).Pairwise
        fun a b => toTime b.timestamp ≤ toTime a.timestamp := by
    rw [List.pairwise_reverse]
    have hs := @List.sorted_mergeSort BusinessRecord
      (fun a b => decide (dirCmp toTime SortField.timestamp SortDir.asc a b ≤ 0))
      (fun a b c h₁ h₂ => by
        rw [asc_le_iff] at h₁ h₂ ⊢
        exact Nat.le_trans h₁ h₂)
      (fun a b => by
        rw [Bool.or_eq_true]
        rcases Nat.le_total (toTime a.timestamp) (toTime b.timestamp) with h | h
        · exact Or.inl ((asc_le_iff toTime a b).mpr h)
        · exact Or.inr ((asc_le_iff toTime b a).mpr h))
      l
    exact hs.imp fun h => (asc_le_iff toTime _ _).mp h
  have hperm :
      (l.mergeSort fun a b =>
          decide (dirCmp toTime SortField.timestamp SortDir.desc a b ≤ 0)).Perm
        ((l.mergeSort fun a b =>
          decide (dirCmp toTime SortField.timestamp SortDir.asc a b ≤ 0)).reverse) :=
    (List.mergeSort_perm l _).trans
      (((List.reverse_perm _).trans (List.mergeSort_perm l _)).symm)
  refine eq_of_perm_of_pairwise_antisymmOn hperm hsortD hsortArev ?_
  intro a ha b hb hab hba
  exact hinj a (List.mem_mergeSort.mp ha) b (List.mem_mergeSort.mp hb)
    (Nat.le_antisymm hba hab)

/-- Witness for C5 at a singleton list (whose timestamps are trivially
pairwise distinct). -/
theorem timestamp_sort_reverse_witness :
    ([recA] : List BusinessRecord).Pairwise
      (fun a b => toTimeLen a.timestamp ≠ toTimeLen b.timestamp) ∧
    sortedResults toTimeLen SortField.timestamp SortDir.desc [recA] =
      (sortedResults toTimeLen SortField.timestamp SortDir.asc [recA]).reverse := by
  have hp : ([recA] : List BusinessRecord).Pairwise
      fun a b => toTimeLen a.timestamp ≠ toTimeLen b.timestamp := by
    simp
  exact ⟨hp, timestamp_sort_reverse toTimeLen [recA] hp⟩

end Pathfinder
